import Mathlib

/-!
# Verification of the GradCafe acquisition-and-normalization pipeline

Shallow embedding of the core pipeline of the repository
(`module_2/scrape.py`, `module_4/src/module_2/clean.py`,
`module_4/src/load_data.py`) together with proofs about the cleaning
schema invariant, the retry/backoff fetcher, the crawl loop, the page
extractor and the idempotent loader.

External collaborators (HTTP transport, BeautifulSoup element selection,
the PostgreSQL storage engine) are modelled at their interface boundary:
responses are an oracle indexed by attempt number, a page is a function
from CSS selector to matched elements, and the applicants table is a list
of rows with the unique-constraint conflict rule of the database.
-/

set_option autoImplicit false

namespace GradCafe

/-! ## Character classes (Python `re` semantics, ASCII fragment)

Python string patterns use Unicode classes; the pipeline's data is ASCII
apart from U+00A0 (produced by `&nbsp;`), so the embedding fixes `\s` to
the ASCII whitespace characters plus U+00A0 and `\w` to `[A-Za-z0-9_]`. -/

/-- Python `\s` (and `str.strip` / `float()` whitespace): space, TAB, LF,
VT, FF, CR, and NO-BREAK SPACE U+00A0. -/
def isPySpace (c : Char) : Bool :=
  c = ' ' || c.toNat = 9 || c.toNat = 10 || c.toNat = 11 || c.toNat = 12 ||
    c.toNat = 13 || c.toNat = 160

/-- Python `\w` restricted to ASCII: letters, digits, underscore. -/
def isPyWord (c : Char) : Bool :=
  c.isAlpha || c.isDigit || c = '_'

/-- `\d`. -/
def isPyDigit (c : Char) : Bool := c.isDigit

/-- Python `str.strip()` on a character list. -/
def pyStripList (l : List Char) : List Char :=
  ((l.dropWhile isPySpace).reverse.dropWhile isPySpace).reverse

/-- Python `str.strip()`. -/
def pyStrip (s : String) : String :=
  ⟨pyStripList s.data⟩

/-- Case-insensitive character comparison (`re.IGNORECASE`). -/
def charCI (a b : Char) : Bool := a.toLower = b.toLower

/-- Does `s` start with `pat`, case-insensitively? -/
def startsWithCI : List Char → List Char → Bool
  | [], _ => true
  | _ :: _, [] => false
  | p :: ps, c :: cs => charCI c p && startsWithCI ps cs

/-! ## `clean.py`: text-cleaning pipeline -/

/-- State machine for `re.sub(r"<[^>]*>", " ", text)`: the first `>` after
a pending `<` closes the tag, the whole match is replaced by one space; a
`<` never followed by `>` stays literal (buffered characters are emitted
unchanged at end of input).  First argument: `none` when no `<` is
pending, `some buf` when a `<` is open with `buf` the (reversed) buffered
characters after it. -/
def stripTagsAux : Option (List Char) → List Char → List Char
  | none, [] => []
  | none, c :: cs =>
    if c = '<' then stripTagsAux (some []) cs else c :: stripTagsAux none cs
  | some buf, [] => '<' :: buf.reverse
  | some buf, c :: cs =>
    if c = '>' then ' ' :: stripTagsAux none cs
    else stripTagsAux (some (c :: buf)) cs

/-- `_strip_html_tags`: remove all HTML tags (regex `<[^>]*>` replaced by
a space); empty input is returned unchanged. -/
def strip_html_tags (text : String) : String :=
  if text = "" then "" else ⟨stripTagsAux none text.data⟩

/-- The named entities recognised by the embedding of `html.unescape`
(the source uses Python's full HTML5 table; the records only ever exercise
these common entities, all requiring a terminating semicolon here). -/
def NAMED_ENTITIES : List (List Char × Char) :=
  [(['l', 't'], '<'), (['g', 't'], '>'), (['a', 'm', 'p'], '&'),
   (['q', 'u', 'o', 't'], '"'), (['n', 'b', 's', 'p'], Char.ofNat 160)]

/-- Try to read one character reference right after a `&`: either a named
entity from `NAMED_ENTITIES` or a decimal numeric reference `#NNN;`.
Returns the decoded character and the number of input characters consumed
(semicolon included). -/
def readEntity (l : List Char) : Option (Char × Nat) :=
  match NAMED_ENTITIES.find? (fun e => l.take (e.1.length + 1) = e.1 ++ [';']) with
  | some e => some (e.2, e.1.length + 1)
  | none =>
    match l with
    | '#' :: rest =>
      let ds := rest.takeWhile isPyDigit
      if ds = [] then none
      else if (rest.drop ds.length).take 1 = [';'] then
        let n := ds.foldl (fun a c => a * 10 + (c.toNat - 48)) 0
        if n < 1114112 && (n < 55296 || 57343 < n) then
          some (Char.ofNat n, ds.length + 2)
        else none
      else none
    | _ => none

/-- Fueled scanner for `html.unescape`: each step consumes at least one
input character, so fuel = input length always suffices. -/
def unescapeAux : Nat → List Char → List Char
  | 0, l => l
  | _ + 1, [] => []
  | fuel + 1, c :: cs =>
    if c = '&' then
      match readEntity cs with
      | some (ch, k) => ch :: unescapeAux fuel (cs.drop k)
      | none => '&' :: unescapeAux fuel cs
    else c :: unescapeAux fuel cs

/-- `_unescape_html_entities`: decode character references
(`html.unescape`, modelled on the entities of `NAMED_ENTITIES` and
decimal numeric references). -/
def unescape_html_entities (text : String) : String :=
  if text = "" then "" else ⟨unescapeAux text.data.length text.data⟩

/-- State machine for `re.sub(r"\s+", " ", text)`: a run of whitespace
becomes a single space.  The flag records whether the previous input
character was part of a whitespace run. -/
def collapseAux : Bool → List Char → List Char
  | _, [] => []
  | inWs, c :: cs =>
    if isPySpace c then
      if inWs then collapseAux true cs else ' ' :: collapseAux true cs
    else c :: collapseAux false cs

/-- `_collapse_whitespace`: collapse whitespace runs to one space and
strip the edges. -/
def collapse_whitespace (text : String) : String :=
  if text = "" then "" else ⟨pyStripList (collapseAux false text.data)⟩

/-- `_clean_text`: `None` becomes the empty string, otherwise strip tags,
unescape entities, and collapse whitespace — in that order, exactly as in
the source. -/
def clean_text (text : Option String) : String :=
  match text with
  | none => ""
  | some s => collapse_whitespace (unescape_html_entities (strip_html_tags s))

/-! ## `clean.py`: canonical-schema mapping

A Python dict of string values is embedded as an association list in
insertion order with unique keys; assigning an existing key updates it in
place, assigning a fresh key appends it (CPython dict semantics).  A raw
entry value that is `None` behaves exactly like a missing key in every
access pattern of the source (`if key in entry and entry[key]`), so raw
entries carry plain strings and the truthiness test treats `""` as
absent. -/

/-- A Python dict with string keys and string values, in insertion order. -/
abbrev Dict := List (String × String)

/-- The keys of a dict, in order. -/
def dictKeys (d : Dict) : List String := d.map Prod.fst

/-- `d[k] = v` on a Python dict: update in place if present, else append. -/
def dictSet (d : Dict) (k v : String) : Dict :=
  if (dictKeys d).contains k then
    d.map (fun p => if p.1 = k then (k, v) else p)
  else d ++ [(k, v)]

/-- `d.get(k, "")` / `d[k]` for a key known to be present. -/
def dictGet (d : Dict) (k : String) : String :=
  match d.find? (fun p => p.1 = k) with
  | some p => p.2
  | none => ""

/-- `key in entry and entry[key]`: the value when present and truthy. -/
def truthyGet (d : Dict) (k : String) : Option String :=
  match d.find? (fun p => p.1 = k) with
  | some p => if p.2 = "" then none else some p.2
  | none => none

/-- `CANONICAL_SCHEMA`. -/
def CANONICAL_SCHEMA : List String :=
  ["school", "program", "decision", "decision_date", "gpa", "gre", "notes"]

/-- `{key: "" for key in CANONICAL_SCHEMA}`. -/
def initRec : Dict := CANONICAL_SCHEMA.map (fun k => (k, ""))

/-- One key-mapping block of `_map_entry_to_schema`:
`for key in srcKeys: if key in entry and entry[key]:
cleaned[dst] = _clean_text(entry[key]); break`. -/
def mapField (cleaned : Dict) (entry : Dict) (srcKeys : List String)
    (dst : String) : Dict :=
  match srcKeys with
  | [] => cleaned
  | k :: ks =>
    match truthyGet entry k with
    | some v => dictSet cleaned dst (clean_text (some v))
    | none => mapField cleaned entry ks dst

/-- The notes aggregation of `_map_entry_to_schema`: cleaned, non-empty
values of the comment-like source keys, in order. -/
def notesParts (entry : Dict) : List String :=
  ["comments", "notes", "details", "raw_content"].filterMap (fun k =>
    match truthyGet entry k with
    | some v =>
      let c := clean_text (some v)
      if c = "" then none else some c
    | none => none)

/-- `" | ".join(parts)` followed by the 1000-character truncation with a
trailing ellipsis marker. -/
def joinAndTruncateNotes (parts : List String) : String :=
  let joined := String.intercalate " | " parts
  if joined.length > 1000 then joined.take 1000 ++ "..." else joined

/-! ### `_extract_from_raw_html` regex searchers

Each searcher is a direct translation of one `re.search` call; greedy
repetition and alternation order follow the Python pattern.  The scans
walk the text position by position (leftmost match wins), exactly like
`re.search`. -/

/-- The four structural keywords of the school patterns. -/
def SCHOOL_KEYWORDS : List (List Char) :=
  [['U', 'n', 'i', 'v', 'e', 'r', 's', 'i', 't', 'y'],
   ['C', 'o', 'l', 'l', 'e', 'g', 'e'],
   ['I', 'n', 's', 't', 'i', 't', 'u', 't', 'e'],
   ['S', 'c', 'h', 'o', 'o', 'l']]

/-- A keyword of `kws` matching at the head of `l` (case-insensitive),
first alternative wins; returns its length. -/
def kwAt (kws : List (List Char)) (l : List Char) : Option Nat :=
  match kws.find? (fun k => startsWithCI k l) with
  | some k => some k.length
  | none => none

/-- Try `(?:University|College|Institute|School)\s+of\s+[\w\s]+` at the
head of `l`; returns the matched text (group 0). -/
def schoolOfAt (l : List Char) : Option (List Char) :=
  match kwAt SCHOOL_KEYWORDS l with
  | none => none
  | some k =>
    let rest := l.drop k
    let ws1 := rest.takeWhile isPySpace
    if ws1 = [] then none
    else
      let rest2 := rest.drop ws1.length
      if startsWithCI ['o', 'f'] rest2 then
        let rest3 := rest2.drop 2
        let ws2 := rest3.takeWhile isPySpace
        if ws2 = [] then none
        else
          let body := (rest3.drop ws2.length).takeWhile
            (fun c => isPyWord c || isPySpace c)
          if body = [] then none
          else some (l.take (k + ws1.length + 2 + ws2.length + body.length))
      else none

/-- Leftmost match of school pattern 1 (scan every start position). -/
def searchSchoolOf : List Char → Option (List Char)
  | [] => none
  | c :: cs =>
    match schoolOfAt (c :: cs) with
    | some m => some m
    | none => searchSchoolOf cs

/-- The latest offset `p ≥ 1` inside `run` at which a school keyword
matches, together with the keyword length (the greedy backtracking of
`[\w\s]+` before the keyword alternation keeps the latest one). -/
def latestKw (run : List Char) : Option (Nat × Nat) :=
  (List.range run.length).foldl (fun acc p =>
    if p = 0 then acc
    else
      match kwAt SCHOOL_KEYWORDS (run.drop p) with
      | some k => some (p, k)
      | none => acc) none

/-- Try `[\w\s]+(?:University|College|Institute|School)` at the head of
`l` (school pattern 2): the leading class run must contain a keyword at
offset at least 1; greediness selects the latest such keyword. -/
def schoolSuffixAt (l : List Char) : Option (List Char) :=
  match l with
  | [] => none
  | c :: _ =>
    if isPyWord c || isPySpace c then
      let run := l.takeWhile (fun x => isPyWord x || isPySpace x)
      match latestKw run with
      | some pk => some (l.take (pk.1 + pk.2))
      | none => none
    else none

/-- Leftmost match of school pattern 2. -/
def searchSchoolSuffix : List Char → Option (List Char)
  | [] => none
  | c :: cs =>
    match schoolSuffixAt (c :: cs) with
    | some m => some m
    | none => searchSchoolSuffix cs

/-- The acronym alternatives of school pattern 3. -/
def SCHOOL_ACRONYMS : List (List Char) :=
  [['M', 'I', 'T'], ['U', 'C', 'L', 'A'], ['U', 'S', 'C'], ['N', 'Y', 'U'],
   ['C', 'M', 'U'], ['C', 'a', 'l', 'T', 'e', 'c', 'h'],
   ['S', 't', 'a', 'n', 'f', 'o', 'r', 'd'],
   ['H', 'a', 'r', 'v', 'a', 'r', 'd'], ['Y', 'a', 'l', 'e'],
   ['P', 'r', 'i', 'n', 'c', 'e', 't', 'o', 'n']]

/-- Leftmost case-insensitive occurrence of one of the `alts`, first
alternative wins at equal positions; returns the text as it appears. -/
def searchAlts (alts : List (List Char)) : List Char → Option (List Char)
  | [] => none
  | c :: cs =>
    match kwAt alts (c :: cs) with
    | some k => some ((c :: cs).take k)
    | none => searchAlts alts cs

/-- `\b` between `prev` and the next character: `prev` must not be a word
character (the matchers below only anchor at word characters). -/
def boundaryBefore (prev : Option Char) : Bool :=
  match prev with
  | none => true
  | some c => !isPyWord c

/-- `\b` after `k` consumed characters of `l`: the following character, if
any, is not a word character. -/
def boundaryAfter (k : Nat) (l : List Char) : Bool :=
  match l.drop k with
  | [] => true
  | c :: _ => !isPyWord c

/-- Generic leftmost-match scanner threading the previous character (for
word boundaries), mirroring `re.search` position by position. -/
def scanWithPrev (f : Option Char → List Char → Option (List Char)) :
    Option Char → List Char → Option (List Char)
  | _, [] => none
  | prev, c :: cs =>
    match f prev (c :: cs) with
    | some m => some m
    | none => scanWithPrev f (some c) cs

/-- The decision keywords of `_extract_from_raw_html`. -/
def DECISION_WORDS : List (List Char) :=
  [['A', 'c', 'c', 'e', 'p', 't', 'e', 'd'],
   ['R', 'e', 'j', 'e', 'c', 't', 'e', 'd'],
   ['W', 'a', 'i', 't', 'l', 'i', 's', 't', 'e', 'd'],
   ['I', 'n', 't', 'e', 'r', 'v', 'i', 'e', 'w'],
   ['P', 'e', 'n', 'd', 'i', 'n', 'g'],
   ['D', 'e', 'n', 'i', 'e', 'd'],
   ['A', 'd', 'm', 'i', 't', 't', 'e', 'd']]

/-- `\b(Accepted|Rejected|Waitlisted|Interview|Pending|Denied|Admitted)\b`
at the head of `l` (case-insensitive, both boundaries). -/
def decisionAt (prev : Option Char) (l : List Char) : Option (List Char) :=
  if boundaryBefore prev then
    match DECISION_WORDS.find?
        (fun k => startsWithCI k l && boundaryAfter k.length l) with
    | some k => some (l.take k.length)
    | none => none
  else none

/-- `[:\s]*`. -/
def colonSpaceRun (l : List Char) : List Char :=
  l.takeWhile (fun c => c = ':' || isPySpace c)

/-- `\bGPA[:\s]*([0-9]\.[0-9]{1,2})\b` at the head of `l`; returns
group 1 (the numeric part).  The fractional repetition is greedy with the
trailing word boundary: two digits are preferred, one is accepted. -/
def gpaAt (prev : Option Char) (l : List Char) : Option (List Char) :=
  if boundaryBefore prev && startsWithCI ['g', 'p', 'a'] l then
    let rest := l.drop 3
    let sep := colonSpaceRun rest
    match rest.drop sep.length with
    | d :: '.' :: f1 :: f2 :: tail =>
      if isPyDigit d && isPyDigit f1 then
        if isPyDigit f2 && boundaryAfter 0 tail then some [d, '.', f1, f2]
        else if !isPyWord f2 then some [d, '.', f1]
        else none
      else none
    | [d, '.', f1] => if isPyDigit d && isPyDigit f1 then some [d, '.', f1] else none
    | _ => none
  else none

/-- `\bGRE[:\s]*(\d{3})[/\s]+(\d{3})` at the head of `l`; group 0. -/
def greSlashAt (prev : Option Char) (l : List Char) : Option (List Char) :=
  if boundaryBefore prev && startsWithCI ['g', 'r', 'e'] l then
    let rest := l.drop 3
    let sep := colonSpaceRun rest
    let rest2 := rest.drop sep.length
    let d1 := rest2.takeWhile isPyDigit
    if d1.length = 3 then
      let rest3 := rest2.drop 3
      let sep2 := rest3.takeWhile (fun c => c = '/' || isPySpace c)
      if sep2 = [] then none
      else
        let d2 := (rest3.drop sep2.length).takeWhile isPyDigit
        if 3 ≤ d2.length then
          some (l.take (3 + sep.length + 3 + sep2.length + 3))
        else none
    else none
  else none

/-- `\bV[:\s]*(\d{3})[,\s]+Q[:\s]*(\d{3})` at the head of `l`; group 0. -/
def greVQAt (prev : Option Char) (l : List Char) : Option (List Char) :=
  if boundaryBefore prev && startsWithCI ['v'] l then
    let rest := l.drop 1
    let sep := colonSpaceRun rest
    let rest2 := rest.drop sep.length
    let d1 := rest2.takeWhile isPyDigit
    if d1.length = 3 then
      let rest3 := rest2.drop 3
      let sep2 := rest3.takeWhile (fun c => c = ',' || isPySpace c)
      if sep2 = [] then none
      else
        let rest4 := rest3.drop sep2.length
        if startsWithCI ['q'] rest4 then
          let rest5 := rest4.drop 1
          let sep3 := colonSpaceRun rest5
          let d2 := (rest5.drop sep3.length).takeWhile isPyDigit
          if 3 ≤ d2.length then
            some (l.take (1 + sep.length + 3 + sep2.length + 1 + sep3.length + 3))
          else none
        else none
    else none
  else none

/-- The numeric date pattern: `\d{1,2}`, a slash-or-hyphen separator
class, `\d{1,2}`, the same separator class, `\d{2,4}`, all between word
boundaries and in a capturing group; returns group 1.
A digit run longer than the greedy bound makes every backtracking
alternative end on a digit, so such runs fail outright. -/
def dateNumericAt (prev : Option Char) (l : List Char) : Option (List Char) :=
  if boundaryBefore prev then
    let d1 := l.takeWhile isPyDigit
    if d1.length = 0 || 3 ≤ d1.length then none
    else
      match l.drop d1.length with
      | s1 :: rest2 =>
        if s1 = '/' || s1 = '-' then
          let d2 := rest2.takeWhile isPyDigit
          if d2.length = 0 || 3 ≤ d2.length then none
          else
            match rest2.drop d2.length with
            | s2 :: rest3 =>
              if s2 = '/' || s2 = '-' then
                let d3 := rest3.takeWhile isPyDigit
                if 2 ≤ d3.length && d3.length ≤ 4 &&
                    boundaryAfter d3.length rest3 then
                  some (l.take (d1.length + 1 + d2.length + 1 + d3.length))
                else none
              else none
            | [] => none
        else none
      | [] => none
  else none

/-- The month abbreviations of the textual date pattern. -/
def MONTH_ABBREVS : List (List Char) :=
  [['J', 'a', 'n'], ['F', 'e', 'b'], ['M', 'a', 'r'], ['A', 'p', 'r'],
   ['M', 'a', 'y'], ['J', 'u', 'n'], ['J', 'u', 'l'], ['A', 'u', 'g'],
   ['S', 'e', 'p'], ['O', 'c', 't'], ['N', 'o', 'v'], ['D', 'e', 'c']]

/-- `\b((?:Jan|...|Dec)[a-z]*\s+\d{1,2},?\s+\d{4})\b` at the head of `l`
(case-insensitive); group 1. -/
def dateTextAt (prev : Option Char) (l : List Char) : Option (List Char) :=
  if boundaryBefore prev then
    match kwAt MONTH_ABBREVS l with
    | none => none
    | some k =>
      let rest := l.drop k
      let letters := rest.takeWhile Char.isAlpha
      let rest2 := rest.drop letters.length
      let ws1 := rest2.takeWhile isPySpace
      if ws1 = [] then none
      else
        let rest3 := rest2.drop ws1.length
        let day := rest3.takeWhile isPyDigit
        if day.length = 0 || 3 ≤ day.length then none
        else
          let rest4 := rest3.drop day.length
          let commaLen := if rest4.take 1 = [','] then 1 else 0
          let rest5 := rest4.drop commaLen
          let ws2 := rest5.takeWhile isPySpace
          if ws2 = [] then none
          else
            let year := (rest5.drop ws2.length).takeWhile isPyDigit
            if year.length = 4 && boundaryAfter 4 (rest5.drop ws2.length) then
              some (l.take (k + letters.length + ws1.length + day.length +
                commaLen + ws2.length + 4))
            else none
  else none

/-- `_extract_from_raw_html`: clean the raw markup, then run the field
regex searches in source order, each filling its canonical key on the
first matching pattern. -/
def extract_from_raw_html (raw_html : String) : Dict :=
  if raw_html = "" then initRec
  else
    let t := (clean_text (some raw_html)).data
    let extracted := initRec
    let extracted :=
      match searchSchoolOf t with
      | some m => dictSet extracted "school" (pyStrip ⟨m⟩)
      | none =>
        match searchSchoolSuffix t with
        | some m => dictSet extracted "school" (pyStrip ⟨m⟩)
        | none =>
          match searchAlts SCHOOL_ACRONYMS t with
          | some m => dictSet extracted "school" (pyStrip ⟨m⟩)
          | none => extracted
    let extracted :=
      match scanWithPrev decisionAt none t with
      | some m => dictSet extracted "decision" (pyStrip ⟨m⟩)
      | none => extracted
    let extracted :=
      match scanWithPrev gpaAt none t with
      | some m => dictSet extracted "gpa" ⟨m⟩
      | none => extracted
    let extracted :=
      match scanWithPrev greSlashAt none t with
      | some m => dictSet extracted "gre" (pyStrip ⟨m⟩)
      | none =>
        match scanWithPrev greVQAt none t with
        | some m => dictSet extracted "gre" (pyStrip ⟨m⟩)
        | none => extracted
    let extracted :=
      match scanWithPrev dateNumericAt none t with
      | some m => dictSet extracted "decision_date" (pyStrip ⟨m⟩)
      | none =>
        match scanWithPrev dateTextAt none t with
        | some m => dictSet extracted "decision_date" (pyStrip ⟨m⟩)
        | none => extracted
    extracted

/-- The backfill loop of `_map_entry_to_schema`: for each canonical key,
`if not cleaned[key] and extracted.get(key): cleaned[key] = extracted[key]`.
Only still-missing fields are filled; populated fields are never
overwritten. -/
def backfill (cleaned extracted : Dict) : Dict :=
  CANONICAL_SCHEMA.foldl (fun r k =>
    if dictGet r k = "" && dictGet extracted k ≠ "" then
      dictSet r k (dictGet extracted k)
    else r) cleaned

/-- The six single-field key-mapping blocks of `_map_entry_to_schema`,
in source order. -/
def keyMappingStage (entry cleaned : Dict) : Dict :=
  mapField (mapField (mapField (mapField (mapField (mapField cleaned
    entry ["institution", "school", "university"] "school")
    entry ["program", "major", "department", "degree"] "program")
    entry ["decision", "status", "result"] "decision")
    entry ["date_added", "decision_date", "date", "notification_date"] "decision_date")
    entry ["gpa", "undergrad_gpa"] "gpa")
    entry ["gre", "gre_score", "gre_scores"] "gre"

/-- The notes aggregation block: join the non-empty cleaned comment
sources with `" | "` and truncate, only when at least one part exists. -/
def notesStage (entry cleaned : Dict) : Dict :=
  let parts := notesParts entry
  if parts ≠ [] then dictSet cleaned "notes" (joinAndTruncateNotes parts)
  else cleaned

/-- The raw-HTML block: when the entry kept a truthy `raw_html` and a
critical field is still empty, backfill only the missing fields from the
secondary extraction. -/
def rawHtmlStage (entry cleaned : Dict) : Dict :=
  match truthyGet entry "raw_html" with
  | some rh =>
    if dictGet cleaned "school" = "" || dictGet cleaned "program" = "" ||
        dictGet cleaned "decision" = "" then
      backfill cleaned (extract_from_raw_html rh)
    else cleaned
  | none => cleaned

/-- `_map_entry_to_schema`: initialise all canonical keys to `""`, run
the key-mapping blocks, the notes aggregation, then the raw-HTML
backfill. -/
def map_entry_to_schema (entry : Dict) : Dict :=
  rawHtmlStage entry (notesStage entry (keyMappingStage entry initRec))

/-- `clean_data`: clean every entry and enforce the canonical schema.
Every embedded entry is a dict, so the `isinstance` skip branch of the
source never fires here; the defensive key check is kept verbatim. -/
def clean_data (entries : List Dict) : List Dict :=
  entries.map (fun entry =>
    let cleaned := map_entry_to_schema entry
    CANONICAL_SCHEMA.foldl (fun r k =>
      if (dictKeys r).contains k then r else r ++ [(k, "")]) cleaned)

/-- The markup tag pattern `<[^>]+>` of `_validate_output` as a Boolean
matcher: state `0` = scanning, `1` = saw `<`, `2` = saw `<` plus at least
one non-`>` character. -/
def tagPatternAux : Nat → List Char → Bool
  | _, [] => false
  | st, c :: cs =>
    if st = 0 then tagPatternAux (if c = '<' then 1 else 0) cs
    else if st = 1 then
      if c = '>' then tagPatternAux 0 cs else tagPatternAux 2 cs
    else
      if c = '>' then true else tagPatternAux 2 cs

/-- Does the string contain a match of `<[^>]+>`? -/
def matchesTagPattern (s : String) : Bool :=
  tagPatternAux 0 s.data

/-! ## `scrape.py`: resilient fetcher

`make_request` performs I/O; the embedding replaces the network by a
response oracle indexed by attempt number (attempt `i` is the `i`-th call
in the recursive retry chain, which runs with `retry_count = i`).  Beside
the `Option String` result of the source, the outcome records the number
of attempts made and the sleep durations requested before each retry —
pure instrumentation of the effect trace. -/

/-- `MIN_DELAY = 1.0` (seconds). -/
def MIN_DELAY : ℚ := 1

/-- `MAX_DELAY = 3.0` (seconds). -/
def MAX_DELAY : ℚ := 3

/-- `MAX_RETRIES = 5`. -/
def MAX_RETRIES : Nat := 5

/-- `RETRY_BACKOFF = 2`. -/
def RETRY_BACKOFF : ℚ := 2

/-- One network interaction as seen by `make_request`:
a decoded body, an `HTTPError` with its status code, a `URLError`
(transport-level failure), or any other exception. -/
inductive Response where
  | success (content : String)
  | httpError (code : Nat)
  | urlError
  | otherError
deriving DecidableEq

/-- The status codes retried by `make_request`. -/
def TRANSIENT_CODES : List Nat := [429, 500, 502, 503, 504]

/-- A response that triggers the retry path (transient HTTP status or
transport error). -/
def isTransient (r : Response) : Bool :=
  match r with
  | .httpError code => TRANSIENT_CODES.contains code
  | .urlError => true
  | _ => false

/-- `wait_time = (RETRY_BACKOFF ** retry_count) * MIN_DELAY`. -/
def wait_time (retryCount : Nat) : ℚ :=
  RETRY_BACKOFF ^ retryCount * MIN_DELAY

/-- Outcome of a fetch: the returned value plus the effect trace. -/
structure FetchOutcome where
  result : Option String
  attempts : Nat
  waits : List ℚ
deriving DecidableEq

/-- Body of `make_request` for one attempt; `fuel` equals
`MAX_RETRIES + 1 - retryCount` on every reachable call, so the
`fuel = 0` default is dead code (the recursion is guarded by
`retry_count < MAX_RETRIES`). -/
def makeRequestAux (resp : Nat → Response) : Nat → Nat → FetchOutcome
  | 0, _ => ⟨none, 0, []⟩
  | fuel + 1, retryCount =>
    match resp retryCount with
    | .success c => ⟨some c, 1, []⟩
    | .httpError code =>
      if TRANSIENT_CODES.contains code then
        if retryCount < MAX_RETRIES then
          let rest := makeRequestAux resp fuel (retryCount + 1)
          ⟨rest.result, rest.attempts + 1, wait_time retryCount :: rest.waits⟩
        else ⟨none, 1, []⟩
      else ⟨none, 1, []⟩
    | .urlError =>
      if retryCount < MAX_RETRIES then
        let rest := makeRequestAux resp fuel (retryCount + 1)
        ⟨rest.result, rest.attempts + 1, wait_time retryCount :: rest.waits⟩
      else ⟨none, 1, []⟩
    | .otherError => ⟨none, 1, []⟩

/-- `make_request(url, retry_count)`: single GET attempt with transient
retries, exponential backoff and terminal `None` on non-retryable errors
or an exhausted budget.  Every exception branch of the source is a
`return` — nothing propagates to the caller. -/
def make_request (resp : Nat → Response) (retryCount : Nat) : FetchOutcome :=
  makeRequestAux resp (max 1 (MAX_RETRIES + 1 - retryCount)) retryCount

/-! ## `scrape.py`: crawl loop

The composition of `make_request` and `extract_entries_from_page` for a
page number is abstracted into a page source: `none` models a failed
fetch (`html_content is None`), `some entries` the extraction result of
a fetched page.  The loop below parametrises the target count (the
source binds the module constant `TARGET_ENTRIES`) so the spec's
configured-target scenarios can be stated; the loop body is otherwise a
line-by-line translation of the `while True` loop of `scrape_data`. -/

/-- `TARGET_ENTRIES = 45000`. -/
def TARGET_ENTRIES : Nat := 45000

/-- `max_consecutive_empty = 3`. -/
def MAX_CONSECUTIVE_EMPTY : Nat := 3

/-- `entry["source_page"] = current_page` (the integer page number is
rendered as its decimal string in the string-valued dict embedding). -/
def stampPage (page : Nat) (e : Dict) : Dict :=
  dictSet e "source_page" (toString page)

/-- The mutable loop state of `scrape_data`. -/
structure CrawlState where
  allEntries : List Dict
  currentPage : Nat
  pagesScraped : Nat
  consecutiveEmpty : Nat
deriving DecidableEq

/-- The return value of `scrape_data` — accumulated entries, count of
pages that yielded at least one entry, target-reached flag — plus, as
instrumentation of the effect trace, the page numbers fetched in order. -/
structure CrawlResult where
  entries : List Dict
  pagesScraped : Nat
  targetReached : Bool
  fetched : List Nat
deriving DecidableEq

/-- A page source: page number to fetch/extraction outcome. -/
abbrev PageSource := Nat → Option (List Dict)

/-- The `while True` loop of `scrape_data`.  `fuel` bounds the iteration
count: every iteration either stops, appends at least one entry (possible
at most `target` times, because the target is re-checked first), or
advances the consecutive-empty counter towards its threshold of 3, so
the source loop terminates for every page source and `crawlFuel` below
strictly exceeds the possible iteration count — the `fuel = 0` branch is
dead code on every reachable call. -/
def scrapeLoop (pr : PageSource) (target : Nat) : Nat → CrawlState → CrawlResult
  | 0, s => ⟨s.allEntries, s.pagesScraped, false, []⟩
  | fuel + 1, s =>
    if target ≤ s.allEntries.length then
      ⟨s.allEntries, s.pagesScraped, true, []⟩
    else
      let p := s.currentPage
      match pr p with
      | none =>
        if MAX_CONSECUTIVE_EMPTY ≤ s.consecutiveEmpty + 1 then
          ⟨s.allEntries, s.pagesScraped, false, [p]⟩
        else
          let r := scrapeLoop pr target fuel
            ⟨s.allEntries, p + 1, s.pagesScraped, s.consecutiveEmpty + 1⟩
          ⟨r.entries, r.pagesScraped, r.targetReached, p :: r.fetched⟩
      | some pageEntries =>
        if pageEntries = [] then
          if MAX_CONSECUTIVE_EMPTY ≤ s.consecutiveEmpty + 1 then
            ⟨s.allEntries, s.pagesScraped, false, [p]⟩
          else
            let r := scrapeLoop pr target fuel
              ⟨s.allEntries, p + 1, s.pagesScraped, s.consecutiveEmpty + 1⟩
            ⟨r.entries, r.pagesScraped, r.targetReached, p :: r.fetched⟩
        else
          let r := scrapeLoop pr target fuel
            ⟨s.allEntries ++ pageEntries.map (stampPage p), p + 1,
              s.pagesScraped + 1, 0⟩
          ⟨r.entries, r.pagesScraped, r.targetReached, p :: r.fetched⟩

/-- An iteration bound exceeding what any run of the loop can use. -/
def crawlFuel (target : Nat) : Nat := 4 * target + 4

/-- `scrape_data`: robots gate, then the crawl loop from page 1 with an
empty accumulator and zeroed counters. -/
def scrape_data (pr : PageSource) (target : Nat) (robotsOk : Bool) :
    CrawlResult :=
  if !robotsOk then ⟨[], 0, false, []⟩
  else scrapeLoop pr target (crawlFuel target) ⟨[], 1, 0, 0⟩

/-! ## `scrape.py`: page extractor

BeautifulSoup is an external collaborator; an element is modelled by what
`parse_entry` consumes from it, and a page by its selector interface:
`select` maps a CSS selector string to the matched elements, and
`findAllRelevant` is the result of the `find_all` fallback over div
class names matching `(result|entry|row|item)`. -/

/-- A single apostrophe, used to build the CSS selector strings of the
source verbatim. -/
def sq : String := String.singleton (Char.ofNat 39)

/-- The CSS attribute-contains selector for a class-name fragment. -/
def attrContains (w : String) : String :=
  "[class*=" ++ sq ++ w ++ sq ++ "]"

/-- Selector string for the institution field of `parse_entry`. -/
def INSTITUTION_SEL : String :=
  ".institution, .school, " ++ attrContains "school" ++ ", " ++
    attrContains "institution"

/-- Selector string for the program field. -/
def PROGRAM_SEL : String :=
  ".program, .major, " ++ attrContains "program" ++ ", " ++
    attrContains "major"

/-- Selector string for the decision field. -/
def DECISION_SEL : String :=
  ".decision, .status, " ++ attrContains "decision" ++ ", " ++
    attrContains "status"

/-- Selector string for the date field. -/
def DATE_SEL : String :=
  ".date, " ++ attrContains "date" ++ ", time"

/-- Selector string for the details field. -/
def DETAILS_SEL : String :=
  ".details, .extra, " ++ attrContains "detail"

/-- Selector string for the comments field. -/
def COMMENTS_SEL : String :=
  ".comments, .notes, " ++ attrContains "comment" ++ ", " ++
    attrContains "note"

/-- An element as consumed by `parse_entry`: per field selector, the
stripped text of the first matching truthy element
(`select_one(sel).get_text(strip=True)`, `none` when nothing matches);
the element's full text (`get_text(separator=" | ", strip=True)`); and
its markup (`str(row)`). -/
structure Element where
  fieldText : String → Option String
  allText : String
  markup : String

/-- The field-extraction part of `parse_entry`: the six independently
optional fields, then the `raw_content` fallback when none was found and
the element has text.  The `except` clause of the source cannot fire in
the embedding (all operations are total). -/
def parseEntryFields (row : Element) : Dict :=
  let entry : Dict := []
  let entry := match row.fieldText INSTITUTION_SEL with
    | some t => dictSet entry "institution" t
    | none => entry
  let entry := match row.fieldText PROGRAM_SEL with
    | some t => dictSet entry "program" t
    | none => entry
  let entry := match row.fieldText DECISION_SEL with
    | some t => dictSet entry "decision" t
    | none => entry
  let entry := match row.fieldText DATE_SEL with
    | some t => dictSet entry "date_added" t
    | none => entry
  let entry := match row.fieldText DETAILS_SEL with
    | some t => dictSet entry "details" t
    | none => entry
  let entry := match row.fieldText COMMENTS_SEL with
    | some t => dictSet entry "comments" t
    | none => entry
  if entry = [] then
    if row.allText ≠ "" then dictSet entry "raw_content" row.allText
    else entry
  else entry

/-- `parse_entry`: extract the fields, always store the raw markup under
`raw_html`, and return the dict unless it is empty
(`return entry if entry else None`). -/
def parse_entry (row : Element) : Option Dict :=
  let entry := dictSet (parseEntryFields row) "raw_html" row.markup
  if entry = [] then none else some entry

/-- A page as consumed by `extract_entries_from_page`. -/
structure Page where
  select : String → List Element
  findAllRelevant : List Element

/-- The ordered selector strategies of `extract_entries_from_page`. -/
def SELECTORS : List String :=
  ["table.results tbody tr", "table tbody tr", ".result-row",
   ".survey-result", attrContains "result", ".card", "article"]

/-- The selector loop: `rows` ends as the first non-empty
`soup.select(selector)` result, or `[]` when every strategy misses. -/
def firstNonempty : List (List Element) → List Element
  | [] => []
  | l :: ls => if l.isEmpty then firstNonempty ls else l

/-- The rows chosen by the strategy loop. -/
def selectRows (page : Page) : List Element :=
  firstNonempty (SELECTORS.map page.select)

/-- The per-row loop: parse each row and keep truthy results
(`if entry: entries.append(entry)`). -/
def processRows (rows : List Element) : List Dict :=
  rows.foldr (fun row acc =>
    match parse_entry row with
    | some e => if e ≠ [] then e :: acc else acc
    | none => acc) []

/-- `extract_entries_from_page`: first-match-wins strategy selection,
`find_all` fallback when every strategy misses, then per-row parsing. -/
def extract_entries_from_page (page : Page) : List Dict :=
  let rows := selectRows page
  let rows := if rows.isEmpty then page.findAllRelevant else rows
  processRows rows

/-- A table-row element for the selector-fallback scenario. -/
def sampleTableRow : Element :=
  ⟨fun _ => none, "row text", "<tr>row text</tr>"⟩

/-- A card element for the selector-fallback scenario. -/
def sampleCard : Element :=
  ⟨fun _ => none, "card text", "<div class=card>card text</div>"⟩

/-- A synthetic page carrying both table-row and card-class elements. -/
def sampleTableAndCardPage : Page where
  select := fun s =>
    if s = "table tbody tr" then [sampleTableRow]
    else if s = ".card" then [sampleCard]
    else []
  findAllRelevant := []

/-- An element none of whose field selectors match and whose text is
empty. -/
def emptyElement : Element := ⟨fun _ => none, "", "<div></div>"⟩

/-- A page whose only row is `emptyElement`. -/
def emptyElementPage : Page where
  select := fun s => if s = "table tbody tr" then [emptyElement] else []
  findAllRelevant := []

/-! ## `load_data.py`: parsing helpers -/

/-- Generic leftmost-match scanner for patterns with no word-boundary
anchor at the start. -/
def scanOpt {α : Type} (f : List Char → Option α) : List Char → Option α
  | [] => none
  | c :: cs =>
    match f (c :: cs) with
    | some m => some m
    | none => scanOpt f cs

/-- Does the text contain `\bw\b`, case-insensitively?  (`w` may contain
a literal space, as in `us citizen`; its end characters are word
characters, so only the outer boundaries matter.) -/
def hasWordCI (w : List Char) (t : List Char) : Bool :=
  (scanWithPrev (fun prev l =>
    if boundaryBefore prev && startsWithCI w l && boundaryAfter w.length l
    then some [] else none) none t).isSome

/-- Does the text contain `\bw` (prefix match, no closing boundary)? -/
def hasWordStartCI (w : List Char) (t : List Char) : Bool :=
  (scanWithPrev (fun prev l =>
    if boundaryBefore prev && startsWithCI w l then some [] else none)
    none t).isSome

/-- `\bwait\s*listed\b` at the head of `l`. -/
def waitSpaceListedAt (prev : Option Char) (l : List Char) : Option (List Char) :=
  if boundaryBefore prev && startsWithCI ['w', 'a', 'i', 't'] l then
    let rest := l.drop 4
    let ws := rest.takeWhile isPySpace
    let rest2 := rest.drop ws.length
    if startsWithCI ['l', 'i', 's', 't', 'e', 'd'] rest2 &&
        boundaryAfter 6 rest2 then some [] else none
  else none

/-- The season alternatives of `extract_term`, in alternation order. -/
def TERM_SEASONS : List (List Char) :=
  [['F', 'a', 'l', 'l'], ['S', 'p', 'r', 'i', 'n', 'g'],
   ['S', 'u', 'm', 'm', 'e', 'r']]

/-- `(Fall|Spring|Summer)\s+\d{4}` at the head of `l` (case-insensitive,
no word boundaries in the source pattern); group 0. -/
def termAt (l : List Char) : Option (List Char) :=
  match kwAt TERM_SEASONS l with
  | none => none
  | some k =>
    let rest := l.drop k
    let ws := rest.takeWhile isPySpace
    if ws = [] then none
    else
      let ds := (rest.drop ws.length).take 4
      if ds.length = 4 && ds.all isPyDigit then
        some (l.take (k + ws.length + 4))
      else none

/-- `extract_term`. -/
def extract_term (text : Option String) : Option String :=
  match text with
  | none => none
  | some s =>
    if s = "" then none
    else (scanOpt termAt s.data).map (fun m => (⟨m⟩ : String))

/-- `extract_nationality`: `\binternational\b` first, then
`\bamerican\b|\bus citizen\b`, case-insensitive. -/
def extract_nationality (text : Option String) : Option String :=
  match text with
  | none => none
  | some s =>
    if s = "" then none
    else if hasWordCI "international".data s.data then some "International"
    else if hasWordCI "american".data s.data ||
        hasWordCI "us citizen".data s.data then some "American"
    else none

/-- `extract_degree`: `\bphd\b` first, then the prefix pattern
`\bmaster`, case-insensitive. -/
def extract_degree (text : Option String) : Option String :=
  match text with
  | none => none
  | some s =>
    if s = "" then none
    else if hasWordCI "phd".data s.data then some "PhD"
    else if hasWordStartCI "master".data s.data then some "Masters"
    else none

/-- `extract_status_from_notes`: accepted, rejected, then
`\bwait\s*listed\b|\bwaitlisted\b`, all case-insensitive. -/
def extract_status_from_notes (text : Option String) : Option String :=
  match text with
  | none => none
  | some s =>
    if s = "" then none
    else if hasWordCI "accepted".data s.data then some "Accepted"
    else if hasWordCI "rejected".data s.data then some "Rejected"
    else if (scanWithPrev waitSpaceListedAt none s.data).isSome ||
        hasWordCI "waitlisted".data s.data then some "Waitlisted"
    else none

/-- Numeric value of a digit string. -/
def digitsNat (l : List Char) : Nat :=
  l.foldl (fun a c => a * 10 + (c.toNat - 48)) 0

/-- A parsed decimal number as an exact rational (`float()` of the
source rounds to binary floating point; the loader only stores these
values opaquely, so the embedding keeps them exact). -/
def pyFloat (s : String) : Option ℚ :=
  let l := s.data
  let sign : ℚ := if l.take 1 = ['-'] then -1 else 1
  let l := if l.take 1 = ['-'] || l.take 1 = ['+'] then l.drop 1 else l
  let intPart := l.takeWhile isPyDigit
  let rest := l.drop intPart.length
  match rest with
  | [] => if intPart = [] then none else some (sign * (digitsNat intPart : ℚ))
  | '.' :: frac =>
    if frac.all isPyDigit then
      if intPart = [] && frac = [] then none
      else some (sign * ((digitsNat intPart : ℚ) +
        (digitsNat frac : ℚ) / (10 : ℚ) ^ frac.length))
    else none
  | _ => none

/-- `parse_float`: `float(value)` with `TypeError`/`ValueError` mapped to
`None` (modelled for decimal literals with optional sign and fraction —
the only shapes the pipeline produces). -/
def parse_float (v : Option String) : Option ℚ :=
  match v with
  | none => none
  | some s => pyFloat (pyStrip s)

/-- `GRE\s+(\d{3})` (case-sensitive) at the head of `l`; group 1. -/
def greTotalAt (l : List Char) : Option (List Char) :=
  if ['G', 'R', 'E'].isPrefixOf l then
    let rest := l.drop 3
    let ws := rest.takeWhile isPySpace
    if ws = [] then none
    else
      let ds := (rest.drop ws.length).take 3
      if ds.length = 3 && ds.all isPyDigit then some ds else none
  else none

/-- `GRE\s*V\s*(\d{2,3})` (case-sensitive) at the head of `l`; group 1
(greedy: three digits when available, two otherwise). -/
def greVerbalAt (l : List Char) : Option (List Char) :=
  if ['G', 'R', 'E'].isPrefixOf l then
    let rest := l.drop 3
    let ws1 := rest.takeWhile isPySpace
    let rest2 := rest.drop ws1.length
    if ['V'].isPrefixOf rest2 then
      let rest3 := rest2.drop 1
      let ws2 := rest3.takeWhile isPySpace
      let ds := ((rest3.drop ws2.length).takeWhile isPyDigit).take 3
      if 2 ≤ ds.length then some ds else none
    else none
  else none

/-- `GRE\s*AW\s*([\d.]+)` (case-sensitive) at the head of `l`; group 1
(greedy run of digits and dots). -/
def greAwAt (l : List Char) : Option (List Char) :=
  if ['G', 'R', 'E'].isPrefixOf l then
    let rest := l.drop 3
    let ws1 := rest.takeWhile isPySpace
    let rest2 := rest.drop ws1.length
    if ['A', 'W'].isPrefixOf rest2 then
      let rest3 := rest2.drop 2
      let ws2 := rest3.takeWhile isPySpace
      let ds := (rest3.drop ws2.length).takeWhile
        (fun c => isPyDigit c || c = '.')
      if ds = [] then none else some ds
    else none
  else none

/-- `extract_gre_parts`: the three independent searches, each group
passed through `parse_float`. -/
def extract_gre_parts (text : Option String) :
    Option ℚ × Option ℚ × Option ℚ :=
  match text with
  | none => (none, none, none)
  | some s =>
    if s = "" then (none, none, none)
    else
      let gre := (scanOpt greTotalAt s.data).bind
        (fun m => parse_float (some ⟨m⟩))
      let greV := (scanOpt greVerbalAt s.data).bind
        (fun m => parse_float (some ⟨m⟩))
      let greAw := (scanOpt greAwAt s.data).bind
        (fun m => parse_float (some ⟨m⟩))
      (gre, greV, greAw)

/-- `split_notes`: split on `|`, strip each segment, keep the truthy
ones. -/
def split_notes (text : Option String) : List String :=
  match text with
  | none => []
  | some s =>
    if s = "" then []
    else ((s.splitOn "|").map pyStrip).filter (fun seg => seg ≠ "")

/-- `extract_program_from_notes`: the second `|`-delimited segment. -/
def extract_program_from_notes (text : Option String) : Option String :=
  (split_notes text).get? 1

/-! ## `load_data.py`: date parsing (`datetime.strptime`) -/

/-- A calendar date as produced by `datetime.date`. -/
structure PyDate where
  year : Nat
  month : Nat
  day : Nat
deriving DecidableEq

/-- Gregorian leap year. -/
def isLeapYear (y : Nat) : Bool :=
  y % 4 = 0 && (y % 100 ≠ 0 || y % 400 = 0)

/-- Days in a month. -/
def daysInMonth (y m : Nat) : Nat :=
  if m = 2 then (if isLeapYear y then 29 else 28)
  else if m = 4 || m = 6 || m = 9 || m = 11 then 30
  else 31

/-- The validation performed by the `datetime` constructor (a failure
raises `ValueError`, which `parse_date` turns into trying the next
format). -/
def validDate (y m d : Nat) : Bool :=
  1 ≤ y && 1 ≤ m && m ≤ 12 && 1 ≤ d && d ≤ daysInMonth y m

/-- The full month names of `%B` (position + 1 is the month number). -/
def MONTH_FULL : List (List Char) :=
  [['J', 'a', 'n', 'u', 'a', 'r', 'y'],
   ['F', 'e', 'b', 'r', 'u', 'a', 'r', 'y'],
   ['M', 'a', 'r', 'c', 'h'],
   ['A', 'p', 'r', 'i', 'l'],
   ['M', 'a', 'y'],
   ['J', 'u', 'n', 'e'],
   ['J', 'u', 'l', 'y'],
   ['A', 'u', 'g', 'u', 's', 't'],
   ['S', 'e', 'p', 't', 'e', 'm', 'b', 'e', 'r'],
   ['O', 'c', 't', 'o', 'b', 'e', 'r'],
   ['N', 'o', 'v', 'e', 'm', 'b', 'e', 'r'],
   ['D', 'e', 'c', 'e', 'm', 'b', 'e', 'r']]

/-- The month name (1-based) and consumed length matching at the head of
`l`, case-insensitively. -/
def monthAt (names : List (List Char)) (l : List Char) : Option (Nat × Nat) :=
  (names.enum.find? (fun e => startsWithCI e.2 l)).map
    (fun e => (e.1 + 1, e.2.length))

/-- The `%d` candidates of `_strptime` — the regex alternation
`3[01]|[12]\d|0[1-9]|[1-9]` in order (all two-digit branches before the
one-digit branch, matching greedy backtracking). -/
def dayCandidates (l : List Char) : List (Nat × Nat) :=
  let two := match l with
    | d1 :: d2 :: _ =>
      if isPyDigit d1 && isPyDigit d2 then
        let v := (d1.toNat - 48) * 10 + (d2.toNat - 48)
        if 1 ≤ v && v ≤ 31 then [(v, 2)] else []
      else []
    | _ => []
  let one := match l with
    | d1 :: _ =>
      if isPyDigit d1 && d1 ≠ '0' then [(d1.toNat - 48, 1)] else []
    | _ => []
  two ++ one

/-- The `%m` candidates — `1[0-2]|0[1-9]|[1-9]`. -/
def monthCandidates (l : List Char) : List (Nat × Nat) :=
  let two := match l with
    | d1 :: d2 :: _ =>
      if isPyDigit d1 && isPyDigit d2 then
        let v := (d1.toNat - 48) * 10 + (d2.toNat - 48)
        if 1 ≤ v && v ≤ 12 then [(v, 2)] else []
      else []
    | _ => []
  let one := match l with
    | d1 :: _ =>
      if isPyDigit d1 && d1 ≠ '0' then [(d1.toNat - 48, 1)] else []
    | _ => []
  two ++ one

/-- `strptime` against `"%B %d, %Y"` / `"%b %d, %Y"` (parametrised by
the month-name table): month name, whitespace, day, literal comma,
whitespace, four-digit year, end of input; then `datetime` validation. -/
def strptimeMonthName (names : List (List Char)) (t : List Char) :
    Option PyDate :=
  match monthAt names t with
  | none => none
  | some mk =>
    let rest := t.drop mk.2
    let ws1 := rest.takeWhile isPySpace
    if ws1 = [] then none
    else
      let rest2 := rest.drop ws1.length
      (dayCandidates rest2).findSome? (fun dc =>
        match rest2.drop dc.2 with
        | ',' :: rest4 =>
          let ws2 := rest4.takeWhile isPySpace
          if ws2 = [] then none
          else
            let rest5 := rest4.drop ws2.length
            if rest5.length = 4 && rest5.all isPyDigit then
              let y := digitsNat rest5
              if validDate y mk.1 dc.1 then some ⟨y, mk.1, dc.1⟩ else none
            else none
        | _ => none)

/-- `strptime` against `"%m/%d/%y"`: month, slash, day, slash, two-digit
year (pivot: 00–68 is 2000s, 69–99 is 1900s), end of input. -/
def strptimeSlash (t : List Char) : Option PyDate :=
  (monthCandidates t).findSome? (fun mc =>
    match t.drop mc.2 with
    | '/' :: rest2 =>
      (dayCandidates rest2).findSome? (fun dc =>
        match rest2.drop dc.2 with
        | '/' :: rest4 =>
          if rest4.length = 2 && rest4.all isPyDigit then
            let yy := digitsNat rest4
            let y := if yy ≤ 68 then 2000 + yy else 1900 + yy
            if validDate y mc.1 dc.1 then some ⟨y, mc.1, dc.1⟩ else none
          else none
        | _ => none)
    | _ => none)

/-- `parse_date`: falsy input is `None`; otherwise strip and try the
three formats in order, `None` when none parses. -/
def parse_date (v : Option String) : Option PyDate :=
  match v with
  | none => none
  | some s =>
    if s = "" then none
    else
      let t := (pyStrip s).data
      match strptimeMonthName MONTH_FULL t with
      | some d => some d
      | none =>
        match strptimeMonthName MONTH_ABBREVS t with
        | some d => some d
        | none => strptimeSlash t

/-! ## `load_data.py`: the idempotent loader -/

/-- `BASE_URL`. -/
def BASE_URL : String := "https://www.thegradcafe.com/survey/"

/-- One element of the `rows` argument of `load_rows`: the keys the
loader reads via `row.get(...)`, each possibly absent/`None`. -/
structure InputRecord where
  notes : Option String
  comments : Option String
  program : Option String
  decision : Option String
  gpa : Option String
  decision_date : Option String
  llmGeneratedProgram : Option String
  llmGeneratedUniversity : Option String
deriving DecidableEq

/-- Python truthiness of an optional string. -/
def pyTruthy (v : Option String) : Bool :=
  match v with
  | some s => s ≠ ""
  | none => false

/-- Python `a or b` on optional strings. -/
def pyOr (a b : Option String) : Option String :=
  if pyTruthy a then a else b

/-- One row of the `applicants` table as the loader inserts it. -/
structure DBRow where
  program : Option String
  comments : String
  date_added : Option PyDate
  url : String
  status : Option String
  term : Option String
  us_or_international : Option String
  gpa : Option ℚ
  gre : Option ℚ
  gre_v : Option ℚ
  gre_aw : Option ℚ
  degree : Option String
  llm_generated_program : Option String
  llm_generated_university : Option String
deriving DecidableEq

/-- The per-record field resolution at the top of the `load_rows` loop
(the dict bound to the INSERT parameters). -/
def buildRow (row : InputRecord) : DBRow :=
  let notes := (pyOr (pyOr row.notes row.comments) (some "")).getD ""
  ⟨pyOr row.program (extract_program_from_notes (some notes)),
    notes,
    parse_date row.decision_date,
    BASE_URL,
    pyOr row.decision (extract_status_from_notes (some notes)),
    extract_term (some notes),
    extract_nationality (some notes),
    parse_float row.gpa,
    (extract_gre_parts (some notes)).1,
    (extract_gre_parts (some notes)).2.1,
    (extract_gre_parts (some notes)).2.2,
    extract_degree (some notes),
    row.llmGeneratedProgram,
    row.llmGeneratedUniversity⟩

/-- The `ON CONFLICT (comments, date_added, url)` arbiter under
PostgreSQL's default NULLS DISTINCT unique-index semantics: a new row
conflicts with a stored one iff the key columns are pairwise equal with
no NULL involved.  `comments` and `url` are never NULL in loader-built
rows, so `date_added` decides: a NULL date never conflicts. -/
def keyConflicts (old new : DBRow) : Bool :=
  old.comments == new.comments && old.url == new.url &&
    (match old.date_added, new.date_added with
     | some d, some e => d == e
     | _, _ => false)

/-- One `INSERT … ON CONFLICT DO NOTHING`: the unchanged table and
`cur.rowcount` 0 on conflict, the appended table and rowcount 1
otherwise. -/
def insertRow (t : List DBRow) (r : DBRow) : List DBRow × Nat :=
  if t.any (fun old => keyConflicts old r) then (t, 0) else (t ++ [r], 1)

/-- The loop body of `load_rows`. -/
def loadStep (acc : List DBRow × Nat) (row : InputRecord) :
    List DBRow × Nat :=
  let ins := insertRow acc.1 (buildRow row)
  (ins.1, acc.2 + ins.2)

/-- `load_rows(rows, conn)`: insert every resolved record with the
conflict-skipping arbiter; returns the table state and the number of
rows actually inserted. -/
def load_rows (rows : List InputRecord) (t : List DBRow) :
    List DBRow × Nat :=
  rows.foldl loadStep (t, 0)

/-- The composite natural key of a stored row. -/
def rowKey3 (r : DBRow) : String × Option PyDate × String :=
  (r.comments, r.date_added, r.url)

/-- The key with the constant `url` column dropped. -/
def rowKey2 (r : DBRow) : String × Option PyDate :=
  (r.comments, r.date_added)

/-- An input record whose `decision_date` is absent, for the
NULL-key idempotence counterexample. -/
def nullDateRecord : InputRecord :=
  ⟨some "great visit day", none, some "CS", some "Accepted",
    none, none, none, none⟩

/-! ## Supporting lemmas -/

theorem dictKeys_map_update (d : Dict) (k v : String) :
    dictKeys (d.map fun p => if p.1 = k then (k, v) else p) = dictKeys d := by
  induction d with
  | nil => rfl
  | cons p t ih =>
    by_cases h : p.1 = k <;> simp [dictKeys, h] <;>
      simpa [dictKeys] using ih

theorem dictKeys_dictSet_of_contains {d : Dict} {k : String} (v : String)
    (h : (dictKeys d).contains k) : dictKeys (dictSet d k v) = dictKeys d := by
  unfold dictSet
  rw [if_pos h]
  exact dictKeys_map_update d k v

theorem keys_dictSet_schema {c : Dict} {k : String} (v : String)
    (h : dictKeys c = CANONICAL_SCHEMA) (hk : CANONICAL_SCHEMA.contains k) :
    dictKeys (dictSet c k v) = CANONICAL_SCHEMA := by
  rw [dictKeys_dictSet_of_contains v (by rw [h]; exact hk), h]

theorem keys_mapField_schema {c entry : Dict} {ks : List String} {dst : String}
    (h : dictKeys c = CANONICAL_SCHEMA) (hd : CANONICAL_SCHEMA.contains dst) :
    dictKeys (mapField c entry ks dst) = CANONICAL_SCHEMA := by
  induction ks with
  | nil => exact h
  | cons k t ih =>
    unfold mapField
    cases truthyGet entry k with
    | some v => exact keys_dictSet_schema _ h hd
    | none => exact ih

theorem keys_keyMappingStage {entry c : Dict}
    (h : dictKeys c = CANONICAL_SCHEMA) :
    dictKeys (keyMappingStage entry c) = CANONICAL_SCHEMA := by
  unfold keyMappingStage
  exact keys_mapField_schema (keys_mapField_schema (keys_mapField_schema
    (keys_mapField_schema (keys_mapField_schema (keys_mapField_schema h
      (by decide)) (by decide)) (by decide)) (by decide)) (by decide)) (by decide)

theorem keys_notesStage {entry c : Dict}
    (h : dictKeys c = CANONICAL_SCHEMA) :
    dictKeys (notesStage entry c) = CANONICAL_SCHEMA := by
  unfold notesStage
  simp only []
  split
  · exact keys_dictSet_schema _ h (by decide)
  · exact h

theorem keys_backfill_schema {c : Dict} (ex : Dict)
    (h : dictKeys c = CANONICAL_SCHEMA) :
    dictKeys (backfill c ex) = CANONICAL_SCHEMA := by
  unfold backfill
  have aux : ∀ (ks : List String) (r : Dict), dictKeys r = CANONICAL_SCHEMA →
      (∀ k ∈ ks, CANONICAL_SCHEMA.contains k) →
      dictKeys (ks.foldl (fun r k =>
        if dictGet r k = "" && dictGet ex k ≠ "" then
          dictSet r k (dictGet ex k)
        else r) r) = CANONICAL_SCHEMA := by
    intro ks
    induction ks with
    | nil => intro r hr _; exact hr
    | cons k t ih =>
      intro r hr hmem
      simp only [List.foldl_cons]
      refine ih _ ?_ (fun x hx => hmem x (List.mem_cons_of_mem k hx))
      split
      · exact keys_dictSet_schema _ hr (hmem k (List.mem_cons_self k t))
      · exact hr
  exact aux CANONICAL_SCHEMA c h (fun k hk => by
    simpa using List.elem_iff.mpr hk)

theorem keys_rawHtmlStage {entry c : Dict}
    (h : dictKeys c = CANONICAL_SCHEMA) :
    dictKeys (rawHtmlStage entry c) = CANONICAL_SCHEMA := by
  unfold rawHtmlStage
  split
  · split
    · exact keys_backfill_schema _ h
    · exact h
  · exact h

theorem keys_map_entry_to_schema (entry : Dict) :
    dictKeys (map_entry_to_schema entry) = CANONICAL_SCHEMA := by
  exact keys_rawHtmlStage (keys_notesStage (keys_keyMappingStage rfl))

theorem defensive_fill_id {r : Dict} (ks : List String)
    (h : ∀ k ∈ ks, (dictKeys r).contains k) :
    ks.foldl (fun r k =>
      if (dictKeys r).contains k then r else r ++ [(k, "")]) r = r := by
  induction ks with
  | nil => rfl
  | cons k t ih =>
    simp only [List.foldl_cons]
    rw [if_pos (h k (List.mem_cons_self k t))]
    exact ih (fun x hx => h x (List.mem_cons_of_mem k hx))

theorem makeRequestAux_success_chain (resp : Nat → Response) (c : String) :
    ∀ (k j : Nat), (∀ i, i < k → isTransient (resp (j + i)) = true) →
    resp (j + k) = .success c → j + k ≤ MAX_RETRIES →
    ∀ fuel, k < fuel →
    makeRequestAux resp fuel j =
      ⟨some c, k + 1, (List.range k).map (fun i => wait_time (j + i))⟩ := by
  intro k
  induction k with
  | zero =>
    intro j _ hsucc _ fuel hfuel
    match fuel, hfuel with
    | f + 1, _ =>
      simp only [Nat.add_zero] at hsucc
      simp [makeRequestAux, hsucc]
  | succ k ih =>
    intro j htrans hsucc hle fuel hfuel
    match fuel, hfuel with
    | f + 1, hfuel =>
      have hj : j < MAX_RETRIES := by omega
      have h0 : isTransient (resp j) = true := by
        simpa using htrans 0 (Nat.succ_pos k)
      have hrest : makeRequestAux resp f (j + 1) =
          ⟨some c, k + 1, (List.range k).map (fun i => wait_time (j + 1 + i))⟩ := by
        refine ih (j + 1) (fun i hi => ?_) ?_ (by omega) f (by omega)
        · have := htrans (i + 1) (by omega)
          simpa [Nat.add_assoc, Nat.add_comm 1 i] using this
        · have : j + 1 + k = j + (k + 1) := by omega
          rw [this, hsucc]
      have hwaits : (List.range (k + 1)).map (fun i => wait_time (j + i)) =
          wait_time j :: (List.range k).map (fun i => wait_time (j + 1 + i)) := by
        rw [List.range_succ_eq_map, List.map_cons, List.map_map]
        simp only [Nat.add_zero]
        congr 1
        refine List.map_congr_left (fun i _ => ?_)
        simp only [Function.comp_apply]
        congr 1
        omega
      cases hr : resp j with
      | success c₂ => rw [hr] at h0; simp [isTransient] at h0
      | otherError => rw [hr] at h0; simp [isTransient] at h0
      | httpError code =>
        have hcode : TRANSIENT_CODES.contains code = true := by
          rw [hr] at h0; simpa [isTransient] using h0
        have hmem : code ∈ TRANSIENT_CODES := by simpa using hcode
        simp [makeRequestAux, hr, hmem, hj, hrest, hwaits]
      | urlError =>
        simp [makeRequestAux, hr, hj, hrest, hwaits]

theorem makeRequestAux_exhaust (resp : Nat → Response)
    (hall : ∀ i, i ≤ MAX_RETRIES → isTransient (resp i) = true) :
    ∀ (n j : Nat), j + n = MAX_RETRIES →
    ∀ fuel, n < fuel →
    makeRequestAux resp fuel j =
      ⟨none, n + 1, (List.range n).map (fun i => wait_time (j + i))⟩ := by
  intro n
  induction n with
  | zero =>
    intro j hj fuel hfuel
    match fuel, hfuel with
    | f + 1, _ =>
      have h0 : isTransient (resp j) = true := hall j (by omega)
      have hj5 : ¬ j < MAX_RETRIES := by omega
      cases hr : resp j with
      | success c => rw [hr] at h0; simp [isTransient] at h0
      | otherError => rw [hr] at h0; simp [isTransient] at h0
      | httpError code =>
        have hcode : TRANSIENT_CODES.contains code = true := by
          rw [hr] at h0; simpa [isTransient] using h0
        have hmem : code ∈ TRANSIENT_CODES := by simpa using hcode
        simp [makeRequestAux, hr, hmem, hj5]
      | urlError => simp [makeRequestAux, hr, hj5]
  | succ n ih =>
    intro j hj fuel hfuel
    match fuel, hfuel with
    | f + 1, hfuel =>
      have hjlt : j < MAX_RETRIES := by omega
      have h0 : isTransient (resp j) = true := hall j (by omega)
      have hrest := ih (j + 1) (by omega) f (by omega)
      have hwaits : (List.range (n + 1)).map (fun i => wait_time (j + i)) =
          wait_time j :: (List.range n).map (fun i => wait_time (j + 1 + i)) := by
        rw [List.range_succ_eq_map, List.map_cons, List.map_map]
        simp only [Nat.add_zero]
        congr 1
        refine List.map_congr_left (fun i _ => ?_)
        simp only [Function.comp_apply]
        congr 1
        omega
      cases hr : resp j with
      | success c => rw [hr] at h0; simp [isTransient] at h0
      | otherError => rw [hr] at h0; simp [isTransient] at h0
      | httpError code =>
        have hcode : TRANSIENT_CODES.contains code = true := by
          rw [hr] at h0; simpa [isTransient] using h0
        have hmem : code ∈ TRANSIENT_CODES := by simpa using hcode
        simp [makeRequestAux, hr, hmem, hjlt, hrest, hwaits]
      | urlError => simp [makeRequestAux, hr, hjlt, hrest, hwaits]

/-! ## Claim theorems: Resilient Fetcher -/

/-- C4.  A URL answering with transient failures (429/500/502/503/504 or
a transport error) for the first `k` attempts, `k ≤ MAX_RETRIES`, and
succeeding on attempt `k`, makes the fetcher return the successful
content after exactly `k + 1` attempts (hence at most
`MAX_RETRIES + 1`), sleeping `MIN_DELAY * RETRY_BACKOFF ^ attempt`
seconds before the 0-based retry attempt `attempt`. -/
theorem make_request_retry_backoff (resp : Nat → Response) (k : Nat)
    (c : String) (htrans : ∀ i, i < k → isTransient (resp i) = true)
    (hsucc : resp k = .success c) (hk : k ≤ MAX_RETRIES) :
    (make_request resp 0).result = some c ∧
    (make_request resp 0).attempts = k + 1 ∧
    (make_request resp 0).attempts ≤ MAX_RETRIES + 1 ∧
    (make_request resp 0).waits =
      (List.range k).map (fun attempt => MIN_DELAY * RETRY_BACKOFF ^ attempt) := by
  have h := makeRequestAux_success_chain resp c k 0
    (fun i hi => by simpa using htrans i hi) (by simpa using hsucc)
    (by simpa using hk) (max 1 (MAX_RETRIES + 1 - 0)) (by
      have h5 : MAX_RETRIES = 5 := rfl
      rw [h5] at hk
      rw [h5]
      omega)
  rw [make_request, h]
  refine ⟨rfl, rfl, by simp; omega, ?_⟩
  refine List.map_congr_left (fun i _ => ?_)
  simp [wait_time, mul_comm]

/-- Witness for C4: two 503 responses, then success on the third
attempt. -/
theorem make_request_retry_backoff_witness :
    (make_request (fun i => if i < 2 then .httpError 503 else .success "ok") 0).result
        = some "ok" ∧
    (make_request (fun i => if i < 2 then .httpError 503 else .success "ok") 0).attempts
        = 3 := by
  have h := make_request_retry_backoff
    (fun i => if i < 2 then .httpError 503 else .success "ok") 2 "ok"
    (by decide) (by decide) (by decide)
  exact ⟨h.1, h.2.1⟩

/-- C5.  The fetcher never propagates an exception (in the embedding it
is a total function into `Option`): exhausting the retry budget on
transient failures yields `None` after `MAX_RETRIES + 1` attempts, and a
non-retryable HTTP error — any 4xx other than 429 — yields `None`
immediately after a single attempt with no retry and no backoff sleep. -/
theorem make_request_no_escape (resp : Nat → Response) (code : Nat) :
    ((∀ i, i ≤ MAX_RETRIES → isTransient (resp i) = true) →
      (make_request resp 0).result = none ∧
      (make_request resp 0).attempts = MAX_RETRIES + 1) ∧
    (400 ≤ code → code < 500 → code ≠ 429 → resp 0 = .httpError code →
      make_request resp 0 = ⟨none, 1, []⟩) := by
  constructor
  · intro hall
    have h := makeRequestAux_exhaust resp hall MAX_RETRIES 0 (by omega)
      (max 1 (MAX_RETRIES + 1 - 0)) (by decide)
    rw [make_request, h]
    exact ⟨rfl, rfl⟩
  · intro h4 h5 h429 hr
    have hc : code ∉ TRANSIENT_CODES := by
      simp [TRANSIENT_CODES]
      omega
    rw [make_request]
    have hfuel : max 1 (MAX_RETRIES + 1 - 0) = 6 := by decide
    rw [hfuel]
    simp [makeRequestAux, hr, hc]

/-- Witness for C5: a permanently failing transport on one hand, a 404
on the other. -/
theorem make_request_no_escape_witness :
    ((make_request (fun _ => .urlError) 0).result = none ∧
      (make_request (fun _ => .urlError) 0).attempts = MAX_RETRIES + 1) ∧
    make_request (fun _ => .httpError 404) 0 = ⟨none, 1, []⟩ := by
  refine ⟨(make_request_no_escape (fun _ => .urlError) 404).1 (by decide),
    (make_request_no_escape (fun _ => .httpError 404) 404).2
      (by decide) (by decide) (by decide) rfl⟩

/-! ## Claim theorems: Text Cleaner -/

/-- C1.  Every record returned by `clean_data` carries exactly the seven
canonical keys `school, program, decision, decision_date, gpa, gre,
notes`, in schema order, with (by construction of the embedding)
string values throughout — no key missing, no null value. -/
theorem clean_data_canonical_keys (entries : List Dict) (r : Dict)
    (h : r ∈ clean_data entries) : dictKeys r = CANONICAL_SCHEMA := by
  unfold clean_data at h
  obtain ⟨e, _, rfl⟩ := List.mem_map.mp h
  rw [defensive_fill_id CANONICAL_SCHEMA (fun k hk => by
    rw [keys_map_entry_to_schema e]
    exact List.elem_iff.mpr hk)]
  exact keys_map_entry_to_schema e

/-- Witness for C1 at a concrete raw entry. -/
theorem clean_data_canonical_keys_witness :
    dictKeys [("school", "MIT"), ("program", ""), ("decision", ""),
      ("decision_date", ""), ("gpa", ""), ("gre", ""), ("notes", "")]
      = CANONICAL_SCHEMA :=
  clean_data_canonical_keys [[("institution", "MIT")]]
    [("school", "MIT"), ("program", ""), ("decision", ""),
      ("decision_date", ""), ("gpa", ""), ("gre", ""), ("notes", "")]
    (by decide)

/-- C3 (failing input).  The cleaner strips tags before decoding
character entities, so the raw entry `{"notes": "&lt;b&gt;"}` cleans to
a record whose notes value `<b>` matches the forbidden markup pattern
`<[^>]+>` — contradicting the module's stated output contract ("no HTML,
no entities, no markup") and its own `_validate_output` check. -/
theorem clean_data_entity_tag_failing_input :
    clean_data [[("notes", "&lt;b&gt;")]] =
      [[("school", ""), ("program", ""), ("decision", ""),
        ("decision_date", ""), ("gpa", ""), ("gre", ""), ("notes", "<b>")]]
    ∧ matchesTagPattern
        (dictGet (clean_data [[("notes", "&lt;b&gt;")]]).headI "notes") = true := by
  exact ⟨by decide, by decide⟩

theorem scrapeLoop_entries_extend (pr : PageSource) (target : Nat) :
    ∀ (fuel : Nat) (s : CrawlState), ∃ rest,
      (scrapeLoop pr target fuel s).entries = s.allEntries ++ rest := by
  intro fuel
  induction fuel with
  | zero => intro s; exact ⟨[], by simp [scrapeLoop]⟩
  | succ fuel ih =>
    intro s
    by_cases ht : target ≤ s.allEntries.length
    · exact ⟨[], by simp [scrapeLoop, ht]⟩
    · cases hpr : pr s.currentPage with
      | none =>
        by_cases hth : MAX_CONSECUTIVE_EMPTY ≤ s.consecutiveEmpty + 1
        · exact ⟨[], by simp [scrapeLoop, ht, hpr, hth]⟩
        · obtain ⟨rest, hr⟩ :=
            ih ⟨s.allEntries, s.currentPage + 1, s.pagesScraped,
              s.consecutiveEmpty + 1⟩
          refine ⟨rest, ?_⟩
          simp only [scrapeLoop, ht, hpr, hth, if_false, if_neg, ite_false]
          simpa using hr
      | some pageEntries =>
        by_cases hpe : pageEntries = []
        · by_cases hth : MAX_CONSECUTIVE_EMPTY ≤ s.consecutiveEmpty + 1
          · exact ⟨[], by simp [scrapeLoop, ht, hpr, hpe, hth]⟩
          · obtain ⟨rest, hr⟩ :=
              ih ⟨s.allEntries, s.currentPage + 1, s.pagesScraped,
                s.consecutiveEmpty + 1⟩
            refine ⟨rest, ?_⟩
            simp only [scrapeLoop, ht, hpr, hpe]
            simp only [hth, if_false, ite_false]
            simpa using hr
        · obtain ⟨rest, hr⟩ :=
            ih ⟨s.allEntries ++ pageEntries.map (stampPage s.currentPage),
              s.currentPage + 1, s.pagesScraped + 1, 0⟩
          refine ⟨pageEntries.map (stampPage s.currentPage) ++ rest, ?_⟩
          simp only [scrapeLoop, ht, hpr, hpe]
          simpa [List.append_assoc] using hr

theorem mem_dictSet_self (d : Dict) (k v : String) : (k, v) ∈ dictSet d k v := by
  unfold dictSet
  split
  · rename_i h
    have hk : k ∈ d.map Prod.fst := by simpa [dictKeys] using h
    obtain ⟨p, hp, hpk⟩ := List.mem_map.mp hk
    refine List.mem_map.mpr ⟨p, hp, ?_⟩
    simp [hpk]
  · exact List.mem_append_right _ (List.mem_singleton.mpr rfl)

theorem firstNonempty_map_spec (f : String → List Element) :
    ∀ (l : List String) (i : Nat) (h : i < l.length),
    (∀ j (hj : j < l.length), j < i → f (l.get ⟨j, hj⟩) = []) →
    f (l.get ⟨i, h⟩) ≠ [] →
    firstNonempty (l.map f) = f (l.get ⟨i, h⟩) := by
  intro l
  induction l with
  | nil => intro i h; simp at h
  | cons x xs ih =>
    intro i h hprev hne
    cases i with
    | zero =>
      simp only [List.map_cons]
      unfold firstNonempty
      rw [if_neg (by simpa [List.isEmpty_iff] using hne)]
      simp
    | succ i =>
      have hx : f x = [] := by simpa using hprev 0 (by simp) (Nat.succ_pos i)
      simp only [List.map_cons]
      unfold firstNonempty
      rw [if_pos (by simp [hx])]
      have := ih i (by simpa using h)
        (fun j hj hji => by
          simpa using hprev (j + 1) (by simpa using hj) (by omega))
        (by simpa using hne)
      simpa using this

theorem keyConflicts_key2 {old new : DBRow} (h : keyConflicts old new = true) :
    rowKey2 old = rowKey2 new := by
  unfold keyConflicts at h
  cases ho : old.date_added with
  | none => rw [ho] at h; simp at h
  | some d =>
    cases hn : new.date_added with
    | none => rw [ho, hn] at h; simp at h
    | some e =>
      rw [ho, hn] at h
      simp only [Bool.and_eq_true, beq_iff_eq] at h
      unfold rowKey2
      rw [ho, hn, h.1.1, h.2]

theorem keyConflicts_self {r : DBRow} (h : r.date_added ≠ none) :
    keyConflicts r r = true := by
  unfold keyConflicts
  cases hd : r.date_added with
  | none => exact absurd hd h
  | some d => simp [hd]

theorem foldl_loadStep_shift (recs : List InputRecord) :
    ∀ (t : List DBRow) (n : Nat),
    recs.foldl loadStep (t, n) =
      ((recs.foldl loadStep (t, 0)).1, n + (recs.foldl loadStep (t, 0)).2) := by
  induction recs with
  | nil => intro t n; simp
  | cons r rs ih =>
    intro t n
    simp only [List.foldl_cons]
    rcases hS : loadStep (t, 0) r with ⟨S1, S2⟩
    have h1 : (insertRow t (buildRow r)).1 = S1 := by
      have := congrArg Prod.fst hS
      simpa [loadStep] using this
    have h2 : (insertRow t (buildRow r)).2 = S2 := by
      have := congrArg Prod.snd hS
      simpa [loadStep] using this
    have hstep : loadStep (t, n) r = (S1, n + S2) := by
      simp [loadStep, h1, h2]
    rw [hstep, ih S1 (n + S2), ih S1 S2]
    simp [Nat.add_assoc]

theorem load_rows_no_insert :
    ∀ (recs : List InputRecord) (t : List DBRow),
    (∀ rec ∈ recs, ∃ old ∈ t, keyConflicts old (buildRow rec) = true) →
    load_rows recs t = (t, 0) := by
  intro recs
  induction recs with
  | nil => intro t _; simp [load_rows]
  | cons r rs ih =>
    intro t h
    obtain ⟨old, hold, hc⟩ := h r (List.mem_cons_self r rs)
    have hany : t.any (fun old => keyConflicts old (buildRow r)) = true :=
      List.any_eq_true.mpr ⟨old, hold, hc⟩
    have hstep : loadStep (t, 0) r = (t, 0) := by
      simp [loadStep, insertRow, hany]
    unfold load_rows
    simp only [List.foldl_cons]
    rw [hstep]
    exact ih t (fun rec hrec => h rec (List.mem_cons_of_mem r hrec))

theorem load_rows_all_insert :
    ∀ (recs : List InputRecord) (t : List DBRow),
    (∀ rec ∈ recs, (buildRow rec).date_added ≠ none) →
    List.Pairwise (fun a b => rowKey2 (buildRow a) ≠ rowKey2 (buildRow b)) recs →
    (∀ rec ∈ recs, ∀ old ∈ t, rowKey2 old ≠ rowKey2 (buildRow rec)) →
    load_rows recs t = (t ++ recs.map buildRow, recs.length) := by
  intro recs
  induction recs with
  | nil => intro t _ _ _; simp [load_rows]
  | cons r rs ih =>
    intro t hdates hpw hfresh
    have hnoconf : t.any (fun old => keyConflicts old (buildRow r)) = false := by
      by_contra hc
      rw [Bool.not_eq_false, List.any_eq_true] at hc
      obtain ⟨old, hold, hconf⟩ := hc
      exact hfresh r (List.mem_cons_self r rs) old hold (keyConflicts_key2 hconf)
    have hstep : loadStep (t, 0) r = (t ++ [buildRow r], 1) := by
      simp [loadStep, insertRow, hnoconf]
    have hpw' := (List.pairwise_cons.mp hpw)
    have hih := ih (t ++ [buildRow r])
      (fun rec hrec => hdates rec (List.mem_cons_of_mem r hrec))
      hpw'.2
      (fun rec hrec old hold => by
        rcases List.mem_append.mp hold with hto | hbr
        · exact hfresh rec (List.mem_cons_of_mem r hrec) old hto
        · rw [List.mem_singleton.mp hbr]
          exact hpw'.1 rec hrec)
    unfold load_rows at hih ⊢
    simp only [List.foldl_cons]
    rw [hstep, foldl_loadStep_shift rs (t ++ [buildRow r]) 1, hih]
    simp [Nat.add_comm]

/-! ## Claim theorems: Idempotent Loader -/

/-- C2 (counterexample).  A single record whose `decision_date` does not
parse gets a NULL `date_added`; under the NULLS DISTINCT unique
semantics of the `ON CONFLICT` arbiter its key never "already exists",
so loading the same one-record set twice inserts it twice: the second
run returns `inserted_count = 1` (the claim says 0) and the final row
count is 2 (the claim says 1). -/
theorem load_rows_null_date_reinserts :
    (load_rows [nullDateRecord] []).2 = 1 ∧
    (load_rows [nullDateRecord] (load_rows [nullDateRecord] []).1).2 = 1 ∧
    (load_rows [nullDateRecord] (load_rows [nullDateRecord] []).1).1.length = 2 := by
  exact ⟨by decide, by decide, by decide⟩

/-- C2 (amended).  For a record set whose members all carry a parseable
`decision_date` (non-NULL `date_added`) and pairwise distinct composite
keys, loading twice from an empty table yields `inserted_count = N` then
`0`, with a final row count of `N`; a record whose non-NULL key already
exists contributes zero and mutates nothing. -/
theorem load_rows_idempotent_parsed_dates (recs : List InputRecord)
    (hdates : ∀ rec ∈ recs, (buildRow rec).date_added ≠ none)
    (hdistinct : List.Pairwise
      (fun a b => rowKey2 (buildRow a) ≠ rowKey2 (buildRow b)) recs) :
    (load_rows recs []).2 = recs.length ∧
    (load_rows recs (load_rows recs []).1).2 = 0 ∧
    (load_rows recs (load_rows recs []).1).1.length = recs.length := by
  have h1 := load_rows_all_insert recs [] hdates hdistinct (by simp)
  have htab : (load_rows recs []).1 = recs.map buildRow := by rw [h1]; simp
  have h2 := load_rows_no_insert recs (recs.map buildRow)
    (fun rec hrec => ⟨buildRow rec, List.mem_map_of_mem _ hrec,
      keyConflicts_self (hdates rec hrec)⟩)
  refine ⟨by rw [h1], ?_, ?_⟩
  · rw [htab, h2]
  · rw [htab, h2]
    simp

/-- An input record with a parseable full-month date. -/
def recJan : InputRecord :=
  ⟨some "Johns Hopkins University | Computer Science | Fall 2026 | accepted",
    none, some "Computer Science", some "Accepted", some "3.8",
    some "January 15, 2026", none, none⟩

/-- A second record with a distinct parseable date and notes. -/
def recFeb : InputRecord :=
  ⟨some "MIT | Computer Science | Fall 2026 | accepted",
    none, some "Computer Science", some "Accepted", some "3.9",
    some "February 01, 2026", none, none⟩

/-- Witness for C2 (amended) at two concrete records. -/
theorem load_rows_idempotent_parsed_dates_witness :
    (load_rows [recJan, recFeb] []).2 = 2 ∧
    (load_rows [recJan, recFeb] (load_rows [recJan, recFeb] []).1).2 = 0 ∧
    (load_rows [recJan, recFeb]
      (load_rows [recJan, recFeb] []).1).1.length = 2 :=
  load_rows_idempotent_parsed_dates [recJan, recFeb] (by decide) (by decide)

/-- C10.  Every row the loader builds has its `url` column equal to the
constant `BASE_URL` (`https://www.thegradcafe.com/survey/`), so the
composite key `(comments, date_added, url)` of any two loader-built rows
coincides exactly when `(comments, date_added)` does — the key
degenerates to the pair. -/
theorem load_rows_url_constant (rec rec₂ : InputRecord) :
    (buildRow rec).url = BASE_URL ∧
    (rowKey3 (buildRow rec) = rowKey3 (buildRow rec₂) ↔
      rowKey2 (buildRow rec) = rowKey2 (buildRow rec₂)) := by
  have h1 : (buildRow rec).url = BASE_URL := rfl
  have h2 : (buildRow rec₂).url = BASE_URL := rfl
  refine ⟨h1, ?_⟩
  unfold rowKey3 rowKey2
  rw [h1, h2]
  simp [Prod.ext_iff]

/-! ## Claim theorems: Page Extractor -/

/-- C8.  The extractor uses the first selector strategy in `SELECTORS`
that yields at least one element; matches of every later strategy are
ignored.  In particular, when table rows are present (strategy `i`) the
later card strategy is never consulted. -/
theorem extract_first_selector_wins (page : Page) (i : Fin SELECTORS.length)
    (hprev : ∀ j : Fin SELECTORS.length, (j : Nat) < (i : Nat) →
      page.select (SELECTORS.get j) = [])
    (hne : page.select (SELECTORS.get i) ≠ []) :
    extract_entries_from_page page =
      processRows (page.select (SELECTORS.get i)) := by
  have hsel : selectRows page = page.select (SELECTORS.get i) := by
    unfold selectRows
    exact firstNonempty_map_spec page.select SELECTORS i.1 i.2
      (fun j hj hji => hprev ⟨j, hj⟩ hji) hne
  unfold extract_entries_from_page
  simp only [hsel]
  rw [if_neg (by simpa [List.isEmpty_iff] using hne)]

/-- Witness for C8: on a synthetic page carrying both table-row and
card-class elements, the table-row matches are used exclusively. -/
theorem extract_first_selector_wins_witness :
    extract_entries_from_page sampleTableAndCardPage =
      processRows (sampleTableAndCardPage.select "table tbody tr") ∧
    sampleTableAndCardPage.select ".card" = [sampleCard] := by
  constructor
  · have h := extract_first_selector_wins sampleTableAndCardPage
      ⟨1, by decide⟩
      (fun j hj => by
        have hj1 : (j : Nat) < 1 := by simpa using hj
        have hj0 : j = ⟨0, by decide⟩ := Fin.ext (by simp; omega)
        rw [hj0]
        rfl)
      (by
        show sampleTableAndCardPage.select "table tbody tr" ≠ []
        simp [sampleTableAndCardPage])
    exact h
  · rfl

/-- C9 (counterexample).  An element with no matching field selector and
empty text yields a record with zero populated data fields, yet
`parse_entry` does **not** discard it: the unconditional `raw_html`
assignment makes the dict non-empty, so the record — carrying only the
raw markup — is returned and appears in the extractor's output. -/
theorem parse_entry_empty_not_discarded :
    parse_entry emptyElement = some [("raw_html", "<div></div>")] ∧
    extract_entries_from_page emptyElementPage =
      [[("raw_html", "<div></div>")]] := by
  exact ⟨by decide, by decide⟩

/-- C9 (amended).  `parse_entry` never returns `none`: every element
yields a record containing at least the `raw_html` key with the
element's markup, because `raw_html` is stored unconditionally before
the emptiness guard, which is therefore unreachable. -/
theorem parse_entry_always_some (row : Element) :
    ∃ e, parse_entry row = some e ∧ ("raw_html", row.markup) ∈ e := by
  refine ⟨dictSet (parseEntryFields row) "raw_html" row.markup, ?_,
    mem_dictSet_self _ _ _⟩
  simp only [parse_entry]
  rw [if_neg (List.ne_nil_of_mem
    (mem_dictSet_self (parseEntryFields row) "raw_html" row.markup))]

/-! ## Claim theorems: Crawl Loop -/

/-- C6 (counterexample).  With a page source yielding entries on pages 1
and 2 and zero entries from page 3 on, and the target not reached, the
crawl loop does **not** stop after page 3: it goes on to fetch page 4
(and page 5), because a single empty page only increments the
consecutive-empty counter towards the threshold of 3. -/
theorem scrape_data_not_stopping_after_page_three :
    4 ∈ (scrape_data
      (fun p => if p ≤ 2 then some [[("raw_content", "x")]] else some [])
      10 true).fetched := by decide

/-- C6 (amended).  With entries on pages 1–2 only and the target not
reached, the loop keeps fetching empty pages 3, 4 and 5 until the
consecutive-empty counter reaches the threshold 3, then stops with
`target_reached = False` and a pages-with-data count of 2. -/
theorem scrape_data_empty_threshold_stop :
    scrape_data
      (fun p => if p ≤ 2 then some [[("raw_content", "x")]] else some [])
      10 true =
      ⟨[[("raw_content", "x"), ("source_page", "1")],
        [("raw_content", "x"), ("source_page", "2")]],
        2, false, [1, 2, 3, 4, 5]⟩ := by decide

/-- C7.  The target check runs only at the start of an iteration, before
any fetch: (i) whenever the accumulated count already meets the target
the loop stops at once with `target_reached = true` and fetches nothing;
(ii) a page whose fetch has begun is appended in full — all its stamped
entries contiguously follow the previous accumulation; (iii) in the
spec's scenario (unlimited pages of 25 entries, target 60) exactly the 3
needed pages are fetched, 75 entries are kept and the flag is true — a
4th page is never started. -/
theorem scrape_loop_target_precheck (pr : PageSource) (target fuel : Nat)
    (s : CrawlState) :
    (target ≤ s.allEntries.length →
      scrapeLoop pr target (fuel + 1) s =
        ⟨s.allEntries, s.pagesScraped, true, []⟩) ∧
    (∀ pe, pr s.currentPage = some pe → pe ≠ [] →
      s.allEntries.length < target →
      ∃ rest, (scrapeLoop pr target (fuel + 1) s).entries =
        s.allEntries ++ pe.map (stampPage s.currentPage) ++ rest) ∧
    scrape_data (fun _ => some (List.replicate 25 [("raw_content", "x")]))
        60 true =
      ⟨List.replicate 25 [("raw_content", "x"), ("source_page", "1")] ++
        List.replicate 25 [("raw_content", "x"), ("source_page", "2")] ++
        List.replicate 25 [("raw_content", "x"), ("source_page", "3")],
        3, true, [1, 2, 3]⟩ := by
  refine ⟨?_, ?_, by decide⟩
  · intro h
    unfold scrapeLoop
    rw [if_pos h]
  · intro pe hpr hne hlt
    have hnt : ¬ target ≤ s.allEntries.length := by omega
    obtain ⟨rest, hr⟩ := scrapeLoop_entries_extend pr target fuel
      ⟨s.allEntries ++ pe.map (stampPage s.currentPage),
        s.currentPage + 1, s.pagesScraped + 1, 0⟩
    refine ⟨rest, ?_⟩
    simp only [scrapeLoop, hnt, hpr, hne]
    simpa [List.append_assoc] using hr

/-- Witness for C7 at a concrete page source and state. -/
theorem scrape_loop_target_precheck_witness :
    (scrapeLoop (fun _ => some [[("a", "b")]]) 0 6 ⟨[], 1, 0, 0⟩ =
      ⟨[], 0, true, []⟩) ∧
    (∃ rest, (scrapeLoop (fun _ => some [[("a", "b")]]) 10 6
        ⟨[], 1, 0, 0⟩).entries =
      [] ++ [[("a", "b")]].map (stampPage 1) ++ rest) := by
  constructor
  · exact (scrape_loop_target_precheck (fun _ => some [[("a", "b")]]) 0 5
      ⟨[], 1, 0, 0⟩).1 (by decide)
  · exact (scrape_loop_target_precheck (fun _ => some [[("a", "b")]]) 10 5
      ⟨[], 1, 0, 0⟩).2.1 [[("a", "b")]] rfl (by decide) (by decide)

end GradCafe
